import Mathlib

/-!
# Verification of the hipDNN execution-provider core

A shallow embedding of the hipDNN EP's capability matching, graph
translation, compilation and execution pipeline (`src/ep.cc`,
`src/kernel.cc`, `src/ep_utils.cc`), together with theorems settling the
spec claims about it.

Host-graph data (nodes, value infos, attributes) is embedded as plain
inductive structures.  Accessor calls that can raise host exceptions are
modelled with `Except String`; a node whose accessor fields are all `.ok`
corresponds to a well-formed host node and is produced by `PNode.lift`.
The vendor library (hipdnn_frontend) is external to the repository, so its
build stages are an oracle (`VendorApi`) whose per-stage outcomes are
parameters.
-/

namespace HipdnnEP

/-- ONNX tensor element data types that matter to this EP
(`ONNXTensorElementDataType` values used in `ep.cc`). -/
inductive ElemType where
  | float
  | float16
  | undefined
  | other
deriving DecidableEq, Repr

/-- hipdnn_frontend::DataType values used by the EP (`kernel.cc`). -/
inductive DataType where
  | FLOAT
  | HALF
deriving DecidableEq, Repr

/-- hipdnn_frontend::HeuristicMode (only FALLBACK is used). -/
inductive HeuristicMode where
  | FALLBACK
deriving DecidableEq, Repr

/-- hipdnn_frontend::ConvolutionMode (only CROSS_CORRELATION is used). -/
inductive ConvolutionMode where
  | CROSS_CORRELATION
deriving DecidableEq, Repr

/-- The type/shape information behind `Ort::ConstValueInfo::TypeInfo()`:
whether the value is a tensor, its element type and its shape. -/
structure PTypeInfo where
  isTensor : Bool
  elemType : ElemType
  shape : List Int
deriving DecidableEq, Repr

/-- Pure (exception-free) view of an `Ort::ConstValueInfo`. -/
structure PValueInfo where
  name : String
  info : PTypeInfo
deriving DecidableEq, Repr

/-- A typed ONNX node attribute value, as read through `OrtOpAttr`.
`other` stands for any attribute whose payload is none of the three
typed reads the EP performs. -/
inductive AttrValue where
  | int (v : Int)
  | ints (v : List Int)
  | str (v : String)
  | other
deriving DecidableEq, Repr

/-- Pure (exception-free) view of an `Ort::ConstNode`. -/
structure PNode where
  name : String
  opType : String
  inputs : List PValueInfo
  outputs : List PValueInfo
  attrs : List (String × AttrValue)
deriving DecidableEq, Repr

instance {ε α : Type} [DecidableEq ε] [DecidableEq α] : DecidableEq (Except ε α) := fun x y =>
  match x, y with
  | .ok a, .ok b =>
    if h : a = b then .isTrue (by rw [h]) else .isFalse (fun he => by cases he; exact h rfl)
  | .error a, .error b =>
    if h : a = b then .isTrue (by rw [h]) else .isFalse (fun he => by cases he; exact h rfl)
  | .ok _, .error _ => .isFalse (fun he => by cases he)
  | .error _, .ok _ => .isFalse (fun he => by cases he)

/-- An `Ort::ConstValueInfo` whose `TypeInfo()` call may raise a host
exception (modelled as `Except.error`). -/
structure ValueInfo where
  name : String
  typeInfo : Except String PTypeInfo
deriving DecidableEq, Repr

/-- An `Ort::ConstNode` whose `GetInputs()` / `GetOutputs()` calls may
raise host exceptions.  Attribute reads go through status codes, not
exceptions (`ep_utils.cc`), so `attrs` is plain data. -/
structure Node where
  name : String
  opType : String
  inputs : Except String (List ValueInfo)
  outputs : Except String (List ValueInfo)
  attrs : List (String × AttrValue)
deriving DecidableEq, Repr

/-- Embed a pure value info as a non-throwing host value info. -/
def PValueInfo.lift (v : PValueInfo) : ValueInfo :=
  { name := v.name, typeInfo := .ok v.info }

/-- Embed a pure node as a non-throwing host node. -/
def PNode.lift (n : PNode) : Node :=
  { name := n.name
    opType := n.opType
    inputs := .ok (n.inputs.map PValueInfo.lift)
    outputs := .ok (n.outputs.map PValueInfo.lift)
    attrs := n.attrs }

/-- `GetTensorShape` (ep_utils.h): `nullopt` when the value is not a
tensor, otherwise the declared shape.  The `TypeInfo()` call may raise. -/
def GetTensorShapeE (v : ValueInfo) : Except String (Option (List Int)) := do
  let t ← v.typeInfo
  pure (if t.isTensor then some t.shape else none)

/-- `GetTensorElementType` (ep_utils.h): `UNDEFINED` when the value is
not a tensor, otherwise the element type.  The `TypeInfo()` call may
raise. -/
def GetTensorElementTypeE (v : ValueInfo) : Except String ElemType := do
  let t ← v.typeInfo
  pure (if t.isTensor then t.elemType else .undefined)

/-- The element type `GetTensorElementType` reports for a non-throwing
value info. -/
def elemTypeOf (v : PValueInfo) : ElemType :=
  if v.info.isTensor then v.info.elemType else .undefined

/-- The shape `GetTensorShape` reports for a non-throwing value info. -/
def shapeOf (v : PValueInfo) : Option (List Int) :=
  if v.info.isTensor then some v.info.shape else none

/-- `node.GetAttributeByName`: `none` models both a not-OK status and a
null attribute pointer (`ep_utils.cc` treats the two alike). -/
def GetAttributeByName (n : Node) (name : String) : Option AttrValue :=
  (n.attrs.find? (fun p => p.1 == name)).map Prod.snd

/-- `GetStringAttrOrDefault` (ep_utils.cc): default when the attribute is
absent, and also when reading its value as a string fails. -/
def GetStringAttrOrDefault (node : Node) (name : String) (default_val : String) : String :=
  match GetAttributeByName node name with
  | none => default_val
  | some a =>
    match a with
    | .str v => v
    | _ => default_val

/-- `GetIntAttrOrDefault` (ep_utils.cc). -/
def GetIntAttrOrDefault (node : Node) (name : String) (default_val : Int) : Int :=
  match GetAttributeByName node name with
  | none => default_val
  | some a =>
    match a with
    | .int v => v
    | _ => default_val

/-- `GetIntsAttrOrDefault` (ep_utils.cc). -/
def GetIntsAttrOrDefault (node : Node) (name : String) (default_val : List Int) : List Int :=
  match GetAttributeByName node name with
  | none => default_val
  | some a =>
    match a with
    | .ints v => v
    | _ => default_val

/-- Body of `IsSupportedConv` (ep.cc lines 16-75) before the enclosing
`try`/`catch`: any host exception raised while reading inputs, outputs or
tensor descriptors surfaces as `.error`.  The list patterns encode the
`inputs.size() < 2 || outputs.size() != 1` arity guard. -/
def IsSupportedConvE (node : Node) : Except String Bool := do
  let inputs ← node.inputs
  let outputs ← node.outputs
  match inputs, outputs with
  | x :: w :: _, [y] => do
    let x_type ← GetTensorElementTypeE x
    let w_type ← GetTensorElementTypeE w
    let y_type ← GetTensorElementTypeE y
    if (x_type = ElemType.float ∨ x_type = ElemType.float16) ∧
        x_type = w_type ∧ x_type = y_type then do
      let x_shape ← GetTensorShapeE x
      let w_shape ← GetTensorShapeE w
      match x_shape, w_shape with
      | some xs, some ws =>
        pure (decide (xs.length = 4 ∧ ws.length = 4 ∧
          GetStringAttrOrDefault node "auto_pad" "NOTSET" = "NOTSET" ∧
          GetIntAttrOrDefault node "group" 1 = 1 ∧
          (let dilations := GetIntsAttrOrDefault node "dilations" [1, 1]
           dilations.length = 2 ∧ dilations.getD 0 0 = 1 ∧ dilations.getD 1 0 = 1)))
      | _, _ => pure false
    else
      pure false
  | _, _ => pure false

/-- `IsSupportedConv` (ep.cc): the `catch (...)` converts any exception
into a plain `false` verdict. -/
def IsSupportedConv (node : Node) : Bool :=
  match IsSupportedConvE node with
  | .ok b => b
  | .error _ => false

/-- `IsSupportedOp` (ep.cc lines 78-87). -/
def IsSupportedOp (node : Node) : Bool :=
  if node.opType = "Conv" then IsSupportedConv node else false

/-- The node-selection part of `HipDNNEp::GetCapabilityImpl`
(ep.cc lines 145-199): each supported node is claimed individually as a
singleton fusion group. -/
def GetCapabilitySupportedNodes (nodes : List Node) : List (List Node) :=
  (nodes.filter IsSupportedOp).map (fun n => [n])

/-! ## Graph translation and compilation (`kernel.cc`) -/

/-- `hipdnn_frontend::graph::TensorAttributes` as the EP populates it. -/
structure TensorAttributes where
  uid : Int
  name : String
  data_type : DataType
  dim : List Int
  stride : List Int
  is_virtual : Bool
deriving DecidableEq, Repr

/-- `ComputeStrides` (kernel.cc lines 11-19): row-major strides, i.e.
`strides[i]` is the product of the dimensions after position `i`. -/
def ComputeStrides : List Int → List Int
  | [] => []
  | _ :: rest => rest.prod :: ComputeStrides rest

/-- `ToHipDNNDataType` (kernel.cc lines 22-32). -/
def ToHipDNNDataType : ElemType → Option DataType
  | .float => some .FLOAT
  | .float16 => some .HALF
  | _ => none

/-- `GetComputeDataType` (kernel.cc lines 36-51): float inputs compute in
32-bit float. -/
def GetComputeDataType (x_dtype w_dtype : DataType) : Option DataType :=
  if (x_dtype = DataType.FLOAT ∨ x_dtype = DataType.HALF) ∧
      (w_dtype = DataType.FLOAT ∨ w_dtype = DataType.HALF) then
    some DataType.FLOAT
  else
    none

/-- `CreateTensorAttr` (kernel.cc lines 56-83).  The vendor default for
`is_virtual` is true; callers overwrite it for externally bound tensors. -/
def CreateTensorAttr (v : PValueInfo) (uid : Int) : Except String TensorAttributes :=
  match shapeOf v with
  | none => .error ("Value must have static shape: " ++ v.name)
  | some shape =>
    match ToHipDNNDataType (elemTypeOf v) with
    | none => .error ("Unsupported data type for value: " ++ v.name)
    | some dt =>
      .ok { uid := uid, name := v.name, data_type := dt, dim := shape,
            stride := ComputeStrides shape, is_virtual := true }

/-- The symbol table: value name to `TensorAttributes`
(`Kernel::symbol_table_`). -/
abbrev SymTable := List (String × TensorAttributes)

/-- Lookup in the symbol table (`symbol_table_.find`). -/
def lookupST (st : SymTable) (name : String) : Option TensorAttributes :=
  (st.find? (fun p => p.1 == name)).map Prod.snd

/-- `symbol_table_[name] = attr`: update in place if the name is present,
append otherwise. -/
def insertST (st : SymTable) (name : String) (a : TensorAttributes) : SymTable :=
  match st with
  | [] => [(name, a)]
  | p :: rest => if p.1 = name then (name, a) :: rest else p :: insertST rest name a

/-- `hipdnn_frontend::graph::ConvFpropAttributes` as set in `AddConvNode`. -/
structure ConvFpropAttributes where
  padding : List Int
  stride : List Int
  dilation : List Int
  convolution_mode : ConvolutionMode
  compute_data_type : DataType
deriving DecidableEq, Repr

/-- One convolution operator recorded in the vendor graph by
`graph.conv_fprop(x, w, attrs)`. -/
structure ConvOp where
  x : TensorAttributes
  w : TensorAttributes
  attrs : ConvFpropAttributes
deriving DecidableEq, Repr

/-- `graph.conv_fprop`: appends the operator and hands back a fresh output
tensor attribute.  The caller overwrites its uid, name, type, dim and
stride immediately afterwards; the vendor marks it virtual. -/
def convFprop (x w : TensorAttributes) (attrs : ConvFpropAttributes) :
    ConvOp × TensorAttributes :=
  ({ x := x, w := w, attrs := attrs },
   { uid := 0, name := "", data_type := attrs.compute_data_type, dim := [],
     stride := [], is_virtual := true })

/-- The padding-normalization step of `AddConvNode` (kernel.cc lines
110-114): `[h, w]` becomes `[h, w, h, w]`; any length other than 2 or 4
is a translation error. -/
def NormalizePads (pads : List Int) : Except String (List Int) :=
  if pads.length = 2 then
    .ok [pads.getD 0 0, pads.getD 1 0, pads.getD 0 0, pads.getD 1 0]
  else if pads.length ≠ 4 then
    .error "Conv pads must have 2 or 4 elements"
  else
    .ok pads

/-- `AddConvNode` (kernel.cc lines 87-134).  Unchecked C++ indexing
`pads[i]` / `strides[i]` / `dilations[i]` is rendered as `getD i 0`; for
`pads` the normalization guarantees length 4 so the defaults are never
consulted. -/
def AddConvNode (node : PNode) (input_attrs : List TensorAttributes) :
    Except String (ConvOp × TensorAttributes) :=
  match input_attrs with
  | x_attr :: w_attr :: _ => do
    let pads0 := GetIntsAttrOrDefault node.lift "pads" [0, 0, 0, 0]
    let conv_strides := GetIntsAttrOrDefault node.lift "strides" [1, 1]
    let dilations := GetIntsAttrOrDefault node.lift "dilations" [1, 1]
    let pads ← NormalizePads pads0
    match GetComputeDataType x_attr.data_type w_attr.data_type with
    | none => .error "Unsupported data type combination for Conv compute"
    | some compute_dtype =>
      let conv_attrs : ConvFpropAttributes :=
        { padding := [pads.getD 0 0, pads.getD 1 0]
          stride := [conv_strides.getD 0 0, conv_strides.getD 1 0]
          dilation := [dilations.getD 0 0, dilations.getD 1 0]
          convolution_mode := .CROSS_CORRELATION
          compute_data_type := compute_dtype }
      .ok (convFprop x_attr w_attr conv_attrs)
  | _ => .error "Conv requires at least 2 input tensor attributes"

/-- `AddNode` (kernel.cc lines 138-154): dispatch on operator type; only
Conv is implemented, producing one vendor op with one output attribute. -/
def AddNode (node : PNode) (input_attrs : List TensorAttributes) :
    Except String (ConvOp × List TensorAttributes) :=
  if node.opType = "Conv" then do
    let (op, y_attr) ← AddConvNode node input_attrs
    .ok (op, [y_attr])
  else
    .error ("Unsupported op type: " ++ node.opType)

/-- The state a `Kernel` accumulates during `BuildAndCompile`.
`assigned` is a specification-only trace recording, in order, every UID
drawn from the `next_uid_` counter. -/
structure KernelState where
  next_uid : Int := 1
  input_uids : List Int := []
  output_uids : List Int := []
  output_shapes : List (List Int) := []
  symbol_table : SymTable := []
  graph_ops : List ConvOp := []
  assigned : List Int := []
  workspace : Nat := 0
deriving DecidableEq, Repr

/-- `next_uid_++`: hand out the current counter value and advance it,
recording the drawn UID in the assignment trace. -/
def freshUid (st : KernelState) : Int × KernelState :=
  (st.next_uid,
   { st with next_uid := st.next_uid + 1, assigned := st.assigned ++ [st.next_uid] })

/-- Step 1 of `Kernel::BuildAndCompile` (kernel.cc lines 179-186): create
a tensor attribute per declared graph input, mark it non-virtual, insert
it into the symbol table and append its UID to `input_uids_`. -/
def ProcessInputs : List PValueInfo → KernelState → Except String KernelState
  | [], st => .ok st
  | v :: rest, st => do
    let (uid, st1) := freshUid st
    let attr0 ← CreateTensorAttr v uid
    let attr := { attr0 with is_virtual := false }
    ProcessInputs rest
      { st1 with symbol_table := insertST st1.symbol_table v.name attr
                 input_uids := st1.input_uids ++ [attr.uid] }

/-- Node-input resolution (kernel.cc lines 196-203): every declared input
name must already be in the symbol table. -/
def ResolveInputs (st : SymTable) : List PValueInfo → Except String (List TensorAttributes)
  | [] => .ok []
  | v :: rest =>
    match lookupST st v.name with
    | none => .error ("Input not found in symbol table: " ++ v.name)
    | some a => do
      let restAttrs ← ResolveInputs st rest
      .ok (a :: restAttrs)

/-- Output tagging (kernel.cc lines 217-238): give each produced output
attribute a fresh UID, propagate the declared element type and static
shape (recomputing strides) and insert it under the declared name. -/
def TagOutputs : List (TensorAttributes × PValueInfo) → KernelState → Except String KernelState
  | [], st => .ok st
  | (attr, out) :: rest, st =>
    match ToHipDNNDataType (elemTypeOf out) with
    | none => .error ("Unsupported data type for output: " ++ out.name)
    | some dt =>
      match shapeOf out with
      | none => .error ("Output must have static shape: " ++ out.name)
      | some shape =>
        let (uid, st1) := freshUid st
        let attr2 := { attr with uid := uid, name := out.name, data_type := dt,
                                 dim := shape, stride := ComputeStrides shape }
        TagOutputs rest
          { st1 with symbol_table := insertST st1.symbol_table out.name attr2 }

/-- Step 2-3 of `Kernel::BuildAndCompile` (kernel.cc lines 189-239): per
node, resolve inputs, append one vendor op, check the produced/declared
output arity and tag the outputs. -/
def ProcessNodes : List PNode → KernelState → Except String KernelState
  | [], st => .ok st
  | node :: rest, st => do
    let input_attrs ← ResolveInputs st.symbol_table node.inputs
    let (op, output_attrs) ← AddNode node input_attrs
    let st1 := { st with graph_ops := st.graph_ops ++ [op] }
    if output_attrs.length = node.outputs.length then do
      let st2 ← TagOutputs (output_attrs.zip node.outputs) st1
      ProcessNodes rest st2
    else
      .error ("Output count mismatch for node " ++ node.name ++ ": expected " ++
        toString node.outputs.length ++ ", got " ++ toString output_attrs.length)

/-- Step 4 of `Kernel::BuildAndCompile` (kernel.cc lines 242-258): mark
each declared graph output non-virtual, record its UID and its static
shape, in declared order. -/
def MarkOutputs : List PValueInfo → KernelState → Except String KernelState
  | [], st => .ok st
  | out :: rest, st =>
    match lookupST st.symbol_table out.name with
    | none => .error ("Graph output not found in symbol table: " ++ out.name)
    | some a =>
      let st1 := { st with symbol_table := insertST st.symbol_table out.name
                             { a with is_virtual := false }
                           output_uids := st.output_uids ++ [a.uid] }
      match shapeOf out with
      | none => .error ("Graph output must have static shape: " ++ out.name)
      | some shape =>
        MarkOutputs rest { st1 with output_shapes := st1.output_shapes ++ [shape] }

/-- Pure view of the fused subgraph handed to `Kernel::BuildAndCompile`. -/
structure PGraph where
  inputs : List PValueInfo
  outputs : List PValueInfo
  nodes : List PNode
deriving DecidableEq, Repr

/-- The translation half of `Kernel::BuildAndCompile` (kernel.cc lines
168-258), starting from a fresh `Kernel` (UID counter at 1, everything
else empty). -/
def Translate (g : PGraph) : Except String KernelState := do
  let st1 ← ProcessInputs g.inputs {}
  let st2 ← ProcessNodes g.nodes st1
  MarkOutputs g.outputs st2

/-- Oracle for the hipdnn_frontend build/execute stages.  The vendor
library is outside this repository; each stage's outcome on a given
operator graph is a parameter.  `exec` receives the variant pack and the
workspace pointer (`none` models a null pointer). -/
structure VendorApi where
  validate : List ConvOp → Except String Unit
  build_operation_graph : List ConvOp → Except String Unit
  create_execution_plans : List HeuristicMode → List ConvOp → Except String Unit
  check_support : List ConvOp → Except String Unit
  build_plans : List ConvOp → Except String Unit
  get_workspace_size : List ConvOp → Except String Int
  exec : List (Int × Nat) → Option Unit → Except String Unit

/-- `Kernel::CompileGraph` (kernel.cc lines 270-310): the vendor build
stages in order, stopping at the first failure with a stage-tagged
message; on success a workspace buffer of exactly the reported size is
allocated when that size is positive. -/
def CompileGraph (v : VendorApi) (st : KernelState) : Except String KernelState :=
  match v.validate st.graph_ops with
  | .error m => .error ("hipDNN graph validation failed: " ++ m)
  | .ok _ =>
  match v.build_operation_graph st.graph_ops with
  | .error m => .error ("hipDNN build_operation_graph failed: " ++ m)
  | .ok _ =>
  match v.create_execution_plans [HeuristicMode.FALLBACK] st.graph_ops with
  | .error m => .error ("hipDNN create_execution_plans failed: " ++ m)
  | .ok _ =>
  match v.check_support st.graph_ops with
  | .error m => .error ("hipDNN check_support failed: " ++ m)
  | .ok _ =>
  match v.build_plans st.graph_ops with
  | .error m => .error ("hipDNN build_plans failed: " ++ m)
  | .ok _ =>
  match v.get_workspace_size st.graph_ops with
  | .error m => .error ("hipDNN get_workspace_size failed: " ++ m)
  | .ok workspace_size =>
    if workspace_size > 0 then
      .ok { st with workspace := workspace_size.toNat }
    else
      .ok st

/-- `Kernel::BuildAndCompile` (kernel.cc lines 168-268): translation then
compilation.  The pure graph raises no host exceptions, so the `catch`
wrapper adds nothing here. -/
def BuildAndCompile (v : VendorApi) (g : PGraph) : Except String KernelState := do
  let st ← Translate g
  CompileGraph v st

/-- The `OrtKernelContext` as `Kernel::Execute` uses it: the supplied
input buffer pointers (as opaque numbers), the output count, and the
host's output materialization (`context.GetOutput(i, shape)`). -/
structure KernelContext where
  inputs : List Nat
  outputCount : Nat
  allocate : Nat → List Int → Nat

/-- What `Kernel::Execute` hands to the vendor execution call. -/
structure ExecRecord where
  variant_pack : List (Int × Nat)
  workspace_ptr : Option Unit
deriving DecidableEq, Repr

/-- `Kernel::Execute` (kernel.cc lines 312-356): count preconditions, the
UID-to-pointer variant pack (inputs in compiled order, then materialized
outputs), the null-workspace rule, and the vendor execute call. -/
def Execute (v : VendorApi) (k : KernelState) (ctx : KernelContext) :
    Except String ExecRecord :=
  if ctx.inputs.length ≠ k.input_uids.length then
    .error ("Input count mismatch: expected " ++ toString k.input_uids.length ++
      ", got " ++ toString ctx.inputs.length)
  else if ctx.outputCount ≠ k.output_uids.length then
    .error ("Output count mismatch: expected " ++ toString k.output_uids.length ++
      ", got " ++ toString ctx.outputCount)
  else
    let out_ptrs := (List.range k.output_uids.length).map
      (fun i => ctx.allocate i (k.output_shapes.getD i []))
    let variant_pack := k.input_uids.zip ctx.inputs ++ k.output_uids.zip out_ptrs
    let workspace_ptr : Option Unit := if k.workspace = 0 then none else some ()
    match v.exec variant_pack workspace_ptr with
    | .error m => .error ("hipDNN execute failed: " ++ m)
    | .ok _ => .ok { variant_pack := variant_pack, workspace_ptr := workspace_ptr }

/-! ## The Facade compile path (`ep.cc`) -/

/-- One entry of a compile request: the fused subgraph and the fused
node's assigned name. -/
structure CompileRequest where
  graph : PGraph
  fused_node_name : String
deriving DecidableEq, Repr

/-- `kernels_.emplace(name, kernel)`: no overwrite when the key exists. -/
def emplaceK (kernels : List (String × KernelState)) (name : String) (k : KernelState) :
    List (String × KernelState) :=
  if (kernels.find? (fun p => p.1 == name)).isSome then kernels
  else kernels ++ [(name, k)]

/-- `HipDNNEp::CompileImpl` (ep.cc lines 203-244) over the Facade's
name-to-Kernel table: per subgraph, reject empty graphs, build and
compile a Kernel, and register it; the first failure ends the call with
that error, leaving the table as mutated so far. -/
def CompileImpl (v : VendorApi) (kernels : List (String × KernelState)) :
    List CompileRequest → List (String × KernelState) × Option String
  | [] => (kernels, none)
  | r :: rest =>
    if r.graph.nodes.isEmpty then
      (kernels, some "Empty graph provided for compilation")
    else
      match BuildAndCompile v r.graph with
      | .error e => (kernels, some e)
      | .ok k => CompileImpl v (emplaceK kernels r.fused_node_name k) rest

/-- The §4.1 acceptance rules as the spec lists them, with the dilation
rule amended to what the code enforces: the `dilations` attribute
(default `[1,1]`) must equal `[1,1]` exactly.  The arity rule (at least
2 inputs, exactly 1 output) is the outer match. -/
def ConvRules (pn : PNode) : Prop :=
  match pn.inputs, pn.outputs with
  | x :: w :: _, [y] =>
    (elemTypeOf x = ElemType.float ∨ elemTypeOf x = ElemType.float16) ∧
    elemTypeOf x = elemTypeOf w ∧ elemTypeOf x = elemTypeOf y ∧
    (match shapeOf x, shapeOf w with
     | some xs, some ws => xs.length = 4 ∧ ws.length = 4
     | _, _ => False) ∧
    GetStringAttrOrDefault pn.lift "auto_pad" "NOTSET" = "NOTSET" ∧
    GetIntAttrOrDefault pn.lift "group" 1 = 1 ∧
    GetIntsAttrOrDefault pn.lift "dilations" [1, 1] = [1, 1]
  | _, _ => False

/-- Def-before-use over a node list: every node input name is either
already defined or produced by an earlier node; each node's outputs
extend the defined set. -/
def DefBeforeUseAux (defined : List String) : List PNode → Bool
  | [] => true
  | n :: rest =>
    (n.inputs.all (fun v => defined.contains v.name)) &&
      DefBeforeUseAux (defined ++ n.outputs.map (fun o => o.name)) rest

/-- Def-before-use for a whole subgraph: the initially defined names are
the declared graph inputs. -/
def DefBeforeUse (g : PGraph) : Bool :=
  DefBeforeUseAux (g.inputs.map (fun v => v.name)) g.nodes

/-- One iteration of the `CompileImpl` loop: the empty-graph check, then
`BuildAndCompile`. -/
def TryCompileOne (v : VendorApi) (r : CompileRequest) : Except String KernelState :=
  if r.graph.nodes.isEmpty then .error "Empty graph provided for compilation"
  else BuildAndCompile v r.graph

/-- The per-request results of the longest prefix of a compile batch on
which every subgraph compiles. -/
def CompiledPrefix (v : VendorApi) : List CompileRequest → List (String × KernelState)
  | [] => []
  | r :: rest =>
    match TryCompileOne v r with
    | .ok k => (r.fused_node_name, k) :: CompiledPrefix v rest
    | .error _ => []

/-- The error of the first failing subgraph of a compile batch, if any. -/
def FirstCompileError (v : VendorApi) : List CompileRequest → Option String
  | [] => none
  | r :: rest =>
    match TryCompileOne v r with
    | .ok _ => FirstCompileError v rest
    | .error e => some e

/-! ## Concrete instances used by witnesses and counterexamples -/

/-- An 8x8 single-channel float input tensor. -/
def viX : PValueInfo := ⟨"X", ⟨true, .float, [1, 1, 8, 8]⟩⟩

/-- A 3x3 single-channel float weight tensor. -/
def viW : PValueInfo := ⟨"W", ⟨true, .float, [1, 1, 3, 3]⟩⟩

/-- The matching float convolution output tensor. -/
def viY : PValueInfo := ⟨"Y", ⟨true, .float, [1, 1, 6, 6]⟩⟩

/-- A plain supported Conv node (all attributes at their defaults). -/
def convNodeEx : PNode := ⟨"conv1", "Conv", [viX, viW], [viY], []⟩

/-- A well-formed one-node Conv subgraph. -/
def gEx : PGraph := ⟨[viX, viW], [viY], [convNodeEx]⟩

/-- A vendor oracle on which every build stage succeeds and no workspace
is required. -/
def vOk : VendorApi :=
  { validate := fun _ => .ok ()
    build_operation_graph := fun _ => .ok ()
    create_execution_plans := fun _ _ => .ok ()
    check_support := fun _ => .ok ()
    build_plans := fun _ => .ok ()
    get_workspace_size := fun _ => .ok 0
    exec := fun _ _ => .ok () }

/-- A subgraph whose single node has an operator type the translator does
not implement, so `BuildAndCompile` fails on it. -/
def badGraphEx : PGraph := ⟨[viX], [viX], [⟨"foo1", "Foo", [viX], [viY], []⟩]⟩

/-- Compile request for the well-formed subgraph. -/
def goodReq : CompileRequest := ⟨gEx, "good"⟩

/-- Compile request for the failing subgraph. -/
def badReq : CompileRequest := ⟨badGraphEx, "bad"⟩

/-- The kernel state `BuildAndCompile` produces on `gEx` under `vOk`. -/
def kEx : KernelState := (BuildAndCompile vOk gEx).toOption.getD {}

/-- The state `Translate` alone produces on `gEx`. -/
def stTr : KernelState := (Translate gEx).toOption.getD {}

/-- The tensor attribute the translator builds for `viX`. -/
def taX : TensorAttributes := ⟨1, "X", .FLOAT, [1, 1, 8, 8], [64, 64, 8, 1], false⟩

/-- The tensor attribute the translator builds for `viW`. -/
def taW : TensorAttributes := ⟨2, "W", .FLOAT, [1, 1, 3, 3], [9, 9, 3, 1], false⟩

/-- Vendor oracle failing at the validate stage. -/
def vFailValidate : VendorApi := { vOk with validate := fun _ => .error "vm" }

/-- Vendor oracle failing at the build-operation-graph stage. -/
def vFailBuildOp : VendorApi := { vOk with build_operation_graph := fun _ => .error "bm" }

/-- Vendor oracle failing at the create-execution-plans stage. -/
def vFailPlans : VendorApi := { vOk with create_execution_plans := fun _ _ => .error "pm" }

/-- Vendor oracle failing at the check-support stage. -/
def vFailSupport : VendorApi := { vOk with check_support := fun _ => .error "sm" }

/-- Vendor oracle failing at the build-plans stage. -/
def vFailBuildPlans : VendorApi := { vOk with build_plans := fun _ => .error "lm" }

/-- Vendor oracle failing at the workspace-size query. -/
def vFailWs : VendorApi := { vOk with get_workspace_size := fun _ => .error "wm" }

/-- Vendor oracle reporting a 16-byte workspace. -/
def vWs16 : VendorApi := { vOk with get_workspace_size := fun _ => .ok 16 }

/-- A compile request whose fused subgraph has zero nodes. -/
def emptyReq : CompileRequest := ⟨⟨[viX], [viX], []⟩, "empty"⟩

/-- A runtime context matching `kEx`: two input buffers, one output. -/
def ctxEx : KernelContext := ⟨[10, 20], 1, fun _ _ => 30⟩

/-- The execution record `Execute` produces for `kEx` on `ctxEx`. -/
def rEx : ExecRecord := (Execute vOk kEx ctxEx).toOption.getD ⟨[], none⟩

/-- A node carrying one integer attribute, for exercising the typed
attribute readers. -/
def attrNodeEx : Node := ⟨"n", "Conv", .ok [], .ok [], [("p", .int 5)]⟩

/-- A node whose `GetInputs()` call raises a host exception. -/
def throwNodeEx : Node := ⟨"t", "Conv", .error "boom", .ok [], []⟩

/-- A node whose first input's `TypeInfo()` call raises. -/
def throwTypeNodeEx : Node :=
  ⟨"t2", "Conv",
   .ok [⟨"X", .error "ti"⟩, PValueInfo.lift viW], .ok [PValueInfo.lift viY], []⟩

/-- A Conv node whose every §4.1 rule holds except that its `dilations`
attribute is the all-ones list `[1]` of length 1. -/
def dilOneNodeEx : PNode := ⟨"conv1", "Conv", [viX, viW], [viY], [("dilations", .ints [1])]⟩

/-! ## Helper lemmas -/

@[simp]
theorem except_ok_bind {α β : Type} (a : α) (f : α → Except String β) :
    (Except.ok a >>= f) = f a := rfl

@[simp]
theorem except_error_bind {α β : Type} (e : String) (f : α → Except String β) :
    ((Except.error e : Except String α) >>= f) = Except.error e := rfl

@[simp]
theorem except_pure_eq {α : Type} (a : α) :
    (pure a : Except String α) = Except.ok a := rfl

/-- Reading the element type of a lifted (non-throwing) value info. -/
@[simp]
theorem getTensorElementTypeE_lift (v : PValueInfo) :
    GetTensorElementTypeE v.lift = .ok (elemTypeOf v) := rfl

/-- Reading the shape of a lifted (non-throwing) value info. -/
@[simp]
theorem getTensorShapeE_lift (v : PValueInfo) :
    GetTensorShapeE v.lift = .ok (shapeOf v) := rfl

/-! ## C9: typed attribute readers fall back to the default -/

/-- C9: each typed attribute reader returns the caller-supplied default
both when the attribute is absent and when the attribute exists but its
value cannot be read at the requested type; no error propagates (the
readers are total functions). -/
theorem attr_readers_default_on_absent_or_mistyped :
    (∀ (n : Node) (name : String), GetAttributeByName n name = none →
      ∀ (sd : String) (id : Int) (ld : List Int),
        GetStringAttrOrDefault n name sd = sd ∧
        GetIntAttrOrDefault n name id = id ∧
        GetIntsAttrOrDefault n name ld = ld) ∧
    (∀ (n : Node) (name : String) (a : AttrValue), GetAttributeByName n name = some a →
      ((∀ v, a ≠ AttrValue.str v) → ∀ sd, GetStringAttrOrDefault n name sd = sd) ∧
      ((∀ v, a ≠ AttrValue.int v) → ∀ id, GetIntAttrOrDefault n name id = id) ∧
      ((∀ v, a ≠ AttrValue.ints v) → ∀ ld, GetIntsAttrOrDefault n name ld = ld)) := by
  constructor
  · intro n name h sd id ld
    simp [GetStringAttrOrDefault, GetIntAttrOrDefault, GetIntsAttrOrDefault, h]
  · intro n name a h
    refine ⟨fun hne sd => ?_, fun hne id => ?_, fun hne ld => ?_⟩ <;>
      cases a <;>
      simp [GetStringAttrOrDefault, GetIntAttrOrDefault, GetIntsAttrOrDefault, h] <;>
      exact absurd rfl (hne _)

/-- Witness for C9 at a concrete node: attribute `"q"` is absent and
attribute `"p"` holds an integer, so the string and int-list readers
return their defaults for it. -/
theorem attr_readers_default_witness :
    GetStringAttrOrDefault attrNodeEx "q" "d" = "d" ∧
    GetIntAttrOrDefault attrNodeEx "q" 9 = 9 ∧
    GetIntsAttrOrDefault attrNodeEx "q" [9] = [9] ∧
    GetStringAttrOrDefault attrNodeEx "p" "d" = "d" ∧
    GetIntsAttrOrDefault attrNodeEx "p" [7] = [7] :=
  have h1 := attr_readers_default_on_absent_or_mistyped.1 attrNodeEx "q" (by decide) "d" 9 [9]
  have h2 := attr_readers_default_on_absent_or_mistyped.2 attrNodeEx "p" (.int 5) (by decide)
  ⟨h1.1, h1.2.1, h1.2.2,
   h2.1 (by intro v h; cases h) "d",
   h2.2.2 (by intro v h; cases h) [7]⟩

/-! ## C8: the capability predicate fails closed -/

/-- C8: an unrecognized operator type is unconditionally unsupported; any
exception from reading inputs, outputs or tensor descriptors is caught
inside the per-node Conv predicate and yields a plain `false` verdict;
the capability query is a total function that simply filters, so one bad
node never fails the whole query. -/
theorem capability_fail_closed :
    (∀ n : Node, n.opType ≠ "Conv" → IsSupportedOp n = false) ∧
    (∀ (n : Node) (e : String), IsSupportedConvE n = .error e → IsSupportedConv n = false) ∧
    (∀ (n : Node) (e : String), n.inputs = .error e → IsSupportedOp n = false) ∧
    (∀ (n : Node) (e : String) (x w y : ValueInfo) (rest : List ValueInfo),
      n.inputs = .ok (x :: w :: rest) → n.outputs = .ok [y] → x.typeInfo = .error e →
      IsSupportedOp n = false) ∧
    (∀ nodes : List Node,
      GetCapabilitySupportedNodes nodes = (nodes.filter IsSupportedOp).map (fun n => [n])) := by
  refine ⟨fun n h => ?_, fun n e h => ?_, fun n e h => ?_,
          fun n e x w y rest hi ho ht => ?_, fun nodes => rfl⟩
  · simp [IsSupportedOp, h]
  · simp [IsSupportedConv, h]
  · have : IsSupportedConv n = false := by
      simp [IsSupportedConv, IsSupportedConvE, h, Except.bind]
    simp [IsSupportedOp, this]
  · have : IsSupportedConv n = false := by
      simp [IsSupportedConv, IsSupportedConvE, hi, ho, GetTensorElementTypeE, ht, Except.bind]
    simp [IsSupportedOp, this]

/-- Witness for C8 at concrete nodes: a `Relu` node, a node whose input
list read throws, and a node whose first input descriptor read throws,
are all rejected without failing the query. -/
theorem capability_fail_closed_witness :
    IsSupportedOp ⟨"r", "Relu", .ok [], .ok [], []⟩ = false ∧
    IsSupportedConv throwNodeEx = false ∧
    IsSupportedOp throwNodeEx = false ∧
    IsSupportedOp throwTypeNodeEx = false ∧
    GetCapabilitySupportedNodes [throwNodeEx] = [] :=
  ⟨capability_fail_closed.1 ⟨"r", "Relu", .ok [], .ok [], []⟩ (by decide),
   capability_fail_closed.2.1 throwNodeEx "boom" (by decide),
   capability_fail_closed.2.2.1 throwNodeEx "boom" (by decide),
   capability_fail_closed.2.2.2.1 throwTypeNodeEx "ti" ⟨"X", .error "ti"⟩
     (PValueInfo.lift viW) (PValueInfo.lift viY) []
     (by decide) (by decide) (by decide),
   by have := capability_fail_closed.2.2.2.2 [throwNodeEx]; rw [this]; decide⟩

/-! ## C2: the Conv capability predicate, rule by rule -/

/-- The dilation check of `IsSupportedConv` is exactly equality with
`[1, 1]`. -/
theorem dilations_check_iff (d : List Int) :
    (d.length = 2 ∧ d.getD 0 0 = 1 ∧ d.getD 1 0 = 1) ↔ d = [1, 1] := by
  rcases d with _ | ⟨a, _ | ⟨b, _ | ⟨c, t⟩⟩⟩ <;> simp_all [List.getD]

/-- C2 (amended): for every non-throwing Conv node, `IsSupportedConv`
returns supported if and only if all of the §4.1 rules hold, with the
dilations attribute required to be exactly `[1, 1]`. -/
theorem conv_predicate_iff_rules (pn : PNode) :
    IsSupportedConv pn.lift = true ↔ ConvRules pn := by
  rcases pn with ⟨nm, op, ins, outs, attrs⟩
  rcases ins with _ | ⟨x, _ | ⟨w, tl⟩⟩
  · simp [IsSupportedConv, IsSupportedConvE, ConvRules, PNode.lift]
  · simp [IsSupportedConv, IsSupportedConvE, ConvRules, PNode.lift]
  · rcases outs with _ | ⟨y, _ | ⟨y2, tl2⟩⟩
    · simp [IsSupportedConv, IsSupportedConvE, ConvRules, PNode.lift]
    · simp only [IsSupportedConv, IsSupportedConvE, ConvRules, PNode.lift, List.map,
        except_ok_bind, getTensorElementTypeE_lift, getTensorShapeE_lift]
      by_cases hc : (elemTypeOf x = ElemType.float ∨ elemTypeOf x = ElemType.float16) ∧
          elemTypeOf x = elemTypeOf w ∧ elemTypeOf x = elemTypeOf y
      · rw [if_pos hc]
        cases hx : shapeOf x <;> cases hw : shapeOf w <;>
          simp only [hx, hw, except_pure_eq]
        · constructor
          · intro h; simp at h
          · rintro ⟨-, -, -, h, -⟩; exact h.elim
        · constructor
          · intro h; simp at h
          · rintro ⟨-, -, -, h, -⟩; exact h.elim
        · constructor
          · intro h; simp at h
          · rintro ⟨-, -, -, h, -⟩; exact h.elim
        · simp only [Bool.and_eq_true, decide_eq_true_eq]
          constructor
          · rintro ⟨h1, h2, h3, h4, h5, h6, h7⟩
            exact ⟨hc.1, hc.2.1, hc.2.2, ⟨h1, h2⟩, h3, h4,
              (dilations_check_iff _).1 ⟨h5, h6, h7⟩⟩
          · rintro ⟨-, -, -, ⟨h1, h2⟩, h3, h4, h5⟩
            have := (dilations_check_iff _).2 h5
            exact ⟨h1, h2, h3, h4, this.1, this.2.1, this.2.2⟩
      · rw [if_neg hc]
        simp only [except_pure_eq]
        constructor
        · intro h; simp at h
        · rintro ⟨a, b, c, -⟩; exact absurd ⟨a, b, c⟩ hc
    · simp [IsSupportedConv, IsSupportedConvE, ConvRules, PNode.lift]

/-- Counterexample to C2 as frozen: `dilOneNodeEx` satisfies every rule
of the claim — arity, one shared float type, static 4-D shapes, default
auto_pad, default group, and an all-ones dilations attribute — yet
`IsSupportedConv` rejects it, because its dilations list `[1]` does not
have length 2. -/
theorem conv_allones_dilation_rejected :
    IsSupportedConv (PNode.lift dilOneNodeEx) = false ∧
    dilOneNodeEx.inputs.length = 2 ∧
    dilOneNodeEx.outputs.length = 1 ∧
    (∀ v ∈ dilOneNodeEx.inputs, elemTypeOf v = ElemType.float) ∧
    (∀ v ∈ dilOneNodeEx.outputs, elemTypeOf v = ElemType.float) ∧
    (∀ v ∈ dilOneNodeEx.inputs, (shapeOf v).isSome ∧ ((shapeOf v).getD []).length = 4) ∧
    GetStringAttrOrDefault (PNode.lift dilOneNodeEx) "auto_pad" "NOTSET" = "NOTSET" ∧
    GetIntAttrOrDefault (PNode.lift dilOneNodeEx) "group" 1 = 1 ∧
    (GetIntsAttrOrDefault (PNode.lift dilOneNodeEx) "dilations" [1, 1]).all
      (fun d => d == 1) = true := by
  decide

/-! ## Structural lemmas about the translation fold -/

theorem range_map_shift (c : Int) (n : Nat) :
    (List.range (n + 1)).map (fun i : Nat => c + (i : Int)) =
      c :: (List.range n).map (fun i : Nat => c + 1 + (i : Int)) := by
  rw [List.range_succ_eq_map]
  simp only [List.map_cons, List.map_map, Nat.cast_zero, add_zero, List.cons.injEq, true_and]
  refine List.map_congr_left (fun a _ => ?_)
  simp only [Function.comp_apply, Nat.succ_eq_add_one]
  push_cast
  ring

theorem range_map_split (c : Int) (a b : Nat) :
    (List.range (a + b)).map (fun i : Nat => c + (i : Int)) =
      (List.range a).map (fun i : Nat => c + (i : Int)) ++
        (List.range b).map (fun i : Nat => c + (a : Int) + (i : Int)) := by
  rw [List.range_add, List.map_append, List.map_map]
  refine congrArg _ (List.map_congr_left (fun i _ => ?_))
  simp only [Function.comp_apply]
  push_cast
  ring

theorem lookupST_cons (p : String × TensorAttributes) (rest : SymTable) (m : String) :
    lookupST (p :: rest) m = if p.1 = m then some p.2 else lookupST rest m := by
  by_cases h : p.1 = m
  · have hb : (p.1 == m) = true := beq_iff_eq.mpr h
    simp [lookupST, List.find?, hb, h]
  · have hb : (p.1 == m) = false := beq_eq_false_iff_ne.mpr h
    simp [lookupST, List.find?, hb, h]

theorem lookupST_insert (st : SymTable) (n : String) (a : TensorAttributes) (m : String) :
    lookupST (insertST st n a) m = if m = n then some a else lookupST st m := by
  induction st with
  | nil =>
    simp only [insertST, lookupST_cons]
    by_cases h : m = n
    · subst h; simp
    · simp [h, Ne.symm h, lookupST, List.find?]
  | cons p rest ih =>
    simp only [insertST]
    by_cases hp : p.1 = n
    · rw [if_pos hp, lookupST_cons, lookupST_cons]
      by_cases h : m = n
      · subst h; simp [hp]
      · simp [h, hp, Ne.symm h]
    · rw [if_neg hp, lookupST_cons, lookupST_cons, ih]
      by_cases hm : p.1 = m
      · have hmn : ¬ m = n := fun hc => hp (by rw [hm, hc])
        simp [hm, hmn]
      · simp [hm]

theorem createTensorAttr_uid (v : PValueInfo) (uid : Int) (a : TensorAttributes)
    (h : CreateTensorAttr v uid = .ok a) : a.uid = uid := by
  unfold CreateTensorAttr at h
  cases hs : shapeOf v with
  | none => rw [hs] at h; simp at h
  | some s =>
    rw [hs] at h
    cases hd : ToHipDNNDataType (elemTypeOf v) with
    | none => rw [hd] at h; simp at h
    | some dt =>
      rw [hd] at h
      injection h with h
      rw [← h]

/-- Effect summary of the graph-input pass: the counter advances by the
number of inputs, and both the assignment trace and the input-UID list
are extended by the consecutive fresh UIDs, in declaration order. -/
theorem processInputs_spec :
    ∀ (l : List PValueInfo) (st st' : KernelState),
    ProcessInputs l st = .ok st' →
    st'.next_uid = st.next_uid + l.length ∧
    st'.assigned = st.assigned ++
      (List.range l.length).map (fun i : Nat => st.next_uid + (i : Int)) ∧
    st'.input_uids = st.input_uids ++
      (List.range l.length).map (fun i : Nat => st.next_uid + (i : Int)) ∧
    st'.output_uids = st.output_uids ∧
    st'.output_shapes = st.output_shapes ∧
    st'.graph_ops = st.graph_ops ∧
    st'.workspace = st.workspace := by
  intro l
  induction l with
  | nil =>
    intro st st' h
    obtain rfl : st = st' := by simpa [ProcessInputs] using h
    simp
  | cons v rest ih =>
    intro st st' h
    simp only [ProcessInputs, freshUid] at h
    cases ha : CreateTensorAttr v st.next_uid with
    | error e => rw [ha] at h; simp at h
    | ok attr0 =>
      rw [ha] at h
      simp only [except_ok_bind] at h
      have huid : attr0.uid = st.next_uid := createTensorAttr_uid v st.next_uid attr0 ha
      obtain ⟨h1, h2, h3, h4, h5, h6, h7⟩ := ih _ _ h
      refine ⟨?_, ?_, ?_, ?_, ?_, ?_, ?_⟩
      · rw [h1]; simp only [List.length_cons]; push_cast; ring
      · rw [h2]
        simp only [List.length_cons, range_map_shift, List.append_assoc,
          List.singleton_append]
      · rw [h3, huid]
        simp only [List.length_cons, range_map_shift, List.append_assoc,
          List.singleton_append]
      · rw [h4]
      · rw [h5]
      · rw [h6]
      · rw [h7]

/-- Symbol-table domain after the graph-input pass: exactly the previous
domain plus the declared input names. -/
theorem processInputs_lookup :
    ∀ (l : List PValueInfo) (st st' : KernelState),
    ProcessInputs l st = .ok st' →
    ∀ name, (lookupST st'.symbol_table name).isSome = true ↔
      ((lookupST st.symbol_table name).isSome = true ∨ name ∈ l.map (fun v => v.name)) := by
  intro l
  induction l with
  | nil =>
    intro st st' h name
    obtain rfl : st = st' := by simpa [ProcessInputs] using h
    simp
  | cons v rest ih =>
    intro st st' h name
    simp only [ProcessInputs, freshUid] at h
    cases ha : CreateTensorAttr v st.next_uid with
    | error e => rw [ha] at h; simp at h
    | ok attr0 =>
      rw [ha] at h
      simp only [except_ok_bind] at h
      rw [ih _ _ h name]
      simp only [lookupST_insert]
      by_cases hn : name = v.name
      · simp [hn]
      · simp [hn]

/-- Effect summary of output tagging: the counter advances by the number
of tagged outputs and the assignment trace is extended by the
consecutive fresh UIDs; the UID lists are untouched. -/
theorem tagOutputs_spec :
    ∀ (pairs : List (TensorAttributes × PValueInfo)) (st st' : KernelState),
    TagOutputs pairs st = .ok st' →
    st'.next_uid = st.next_uid + pairs.length ∧
    st'.assigned = st.assigned ++
      (List.range pairs.length).map (fun i : Nat => st.next_uid + (i : Int)) ∧
    st'.input_uids = st.input_uids ∧
    st'.output_uids = st.output_uids ∧
    st'.output_shapes = st.output_shapes ∧
    st'.graph_ops = st.graph_ops ∧
    st'.workspace = st.workspace := by
  intro pairs
  induction pairs with
  | nil =>
    intro st st' h
    obtain rfl : st = st' := by simpa [TagOutputs] using h
    simp
  | cons pr rest ih =>
    intro st st' h
    obtain ⟨attr, out⟩ := pr
    simp only [TagOutputs, freshUid] at h
    cases hd : ToHipDNNDataType (elemTypeOf out) with
    | none => rw [hd] at h; simp at h
    | some dt =>
      rw [hd] at h
      cases hs : shapeOf out with
      | none => rw [hs] at h; simp at h
      | some shape =>
        rw [hs] at h
        obtain ⟨h1, h2, h3, h4, h5, h6, h7⟩ := ih _ _ h
        refine ⟨?_, ?_, ?_, ?_, ?_, ?_, ?_⟩
        · rw [h1]; simp only [List.length_cons]; push_cast; ring
        · rw [h2]
          simp only [List.length_cons, range_map_shift, List.append_assoc,
            List.singleton_append]
        · rw [h3]
        · rw [h4]
        · rw [h5]
        · rw [h6]
        · rw [h7]

/-- Symbol-table domain after output tagging: the previous domain plus
the declared output names. -/
theorem tagOutputs_lookup :
    ∀ (pairs : List (TensorAttributes × PValueInfo)) (st st' : KernelState),
    TagOutputs pairs st = .ok st' →
    ∀ name, (lookupST st'.symbol_table name).isSome = true ↔
      ((lookupST st.symbol_table name).isSome = true ∨
        name ∈ pairs.map (fun pr => pr.2.name)) := by
  intro pairs
  induction pairs with
  | nil =>
    intro st st' h name
    obtain rfl : st = st' := by simpa [TagOutputs] using h
    simp
  | cons pr rest ih =>
    intro st st' h name
    obtain ⟨attr, out⟩ := pr
    simp only [TagOutputs, freshUid] at h
    cases hd : ToHipDNNDataType (elemTypeOf out) with
    | none => rw [hd] at h; simp at h
    | some dt =>
      rw [hd] at h
      cases hs : shapeOf out with
      | none => rw [hs] at h; simp at h
      | some shape =>
        rw [hs] at h
        rw [ih _ _ h name]
        simp only [lookupST_insert]
        by_cases hn : name = out.name
        · simp [hn]
        · simp [hn]

/-- A successful input resolution means every declared node-input name is
present in the symbol table. -/
theorem resolveInputs_defined :
    ∀ (l : List PValueInfo) (table : SymTable) (attrs : List TensorAttributes),
    ResolveInputs table l = .ok attrs →
    ∀ v ∈ l, (lookupST table v.name).isSome = true := by
  intro l
  induction l with
  | nil => intro table attrs _ v hv; cases hv
  | cons u rest ih =>
    intro table attrs h v hv
    simp only [ResolveInputs] at h
    cases hl : lookupST table u.name with
    | none => rw [hl] at h; simp at h
    | some a =>
      rw [hl] at h
      cases hr : ResolveInputs table rest with
      | error e => rw [hr] at h; simp at h
      | ok restAttrs =>
        rcases List.mem_cons.mp hv with rfl | hv'
        · simp [hl]
        · exact ih table restAttrs hr v hv'

/-- Effect summary of the per-node pass: the counter advances by the
total number of node outputs, the assignment trace is extended by the
consecutive fresh UIDs, and the UID/shape lists are untouched. -/
theorem processNodes_spec :
    ∀ (nodes : List PNode) (st st' : KernelState),
    ProcessNodes nodes st = .ok st' →
    st'.next_uid = st.next_uid + (((nodes.map (fun n => n.outputs.length)).sum : Nat) : Int) ∧
    st'.assigned = st.assigned ++
      (List.range (nodes.map (fun n => n.outputs.length)).sum).map
        (fun i : Nat => st.next_uid + (i : Int)) ∧
    st'.input_uids = st.input_uids ∧
    st'.output_uids = st.output_uids ∧
    st'.output_shapes = st.output_shapes ∧
    st'.workspace = st.workspace := by
  intro nodes
  induction nodes with
  | nil =>
    intro st st' h
    obtain rfl : st = st' := by simpa [ProcessNodes] using h
    simp
  | cons node rest ih =>
    intro st st' h
    simp only [ProcessNodes] at h
    cases hr : ResolveInputs st.symbol_table node.inputs with
    | error e => rw [hr] at h; simp at h
    | ok input_attrs =>
      rw [hr] at h
      simp only [except_ok_bind] at h
      cases han : AddNode node input_attrs with
      | error e => rw [han] at h; simp at h
      | ok pr =>
        rw [han] at h
        simp only [except_ok_bind] at h
        obtain ⟨op, output_attrs⟩ := pr
        by_cases hlen : output_attrs.length = node.outputs.length
        · rw [if_pos hlen] at h
          cases ht : TagOutputs (output_attrs.zip node.outputs)
              { st with graph_ops := st.graph_ops ++ [op] } with
          | error e => rw [ht] at h; simp at h
          | ok st2 =>
            rw [ht] at h
            simp only [except_ok_bind] at h
            have hzl : (output_attrs.zip node.outputs).length = node.outputs.length := by
              simp [List.length_zip, hlen]
            obtain ⟨t1, t2, t3, t4, t5, t6, t7⟩ := tagOutputs_spec _ _ _ ht
            rw [hzl] at t1 t2
            obtain ⟨i1, i2, i3, i4, i5, i6⟩ := ih _ _ h
            refine ⟨?_, ?_, ?_, ?_, ?_, ?_⟩
            · rw [i1, t1]
              simp only [List.map_cons, List.sum_cons]
              omega
            · rw [i2, t2, t1]
              simp only [List.map_cons, List.sum_cons, range_map_split,
                List.append_assoc]
            · rw [i3, t3]
            · rw [i4, t4]
            · rw [i5, t5]
            · rw [i6, t7]
        · rw [if_neg hlen] at h
          simp at h

/-- A successful per-node pass implies def-before-use for the node list,
for any name set matching the symbol-table domain. -/
theorem processNodes_defined :
    ∀ (nodes : List PNode) (st st' : KernelState),
    ProcessNodes nodes st = .ok st' →
    ∀ defined : List String,
      (∀ name, name ∈ defined ↔ (lookupST st.symbol_table name).isSome = true) →
      DefBeforeUseAux defined nodes = true := by
  intro nodes
  induction nodes with
  | nil => intro st st' h defined hdef; rfl
  | cons node rest ih =>
    intro st st' h defined hdef
    simp only [ProcessNodes] at h
    cases hr : ResolveInputs st.symbol_table node.inputs with
    | error e => rw [hr] at h; simp at h
    | ok input_attrs =>
      rw [hr] at h
      simp only [except_ok_bind] at h
      cases han : AddNode node input_attrs with
      | error e => rw [han] at h; simp at h
      | ok pr =>
        rw [han] at h
        simp only [except_ok_bind] at h
        obtain ⟨op, output_attrs⟩ := pr
        by_cases hlen : output_attrs.length = node.outputs.length
        · rw [if_pos hlen] at h
          cases ht : TagOutputs (output_attrs.zip node.outputs)
              { st with graph_ops := st.graph_ops ++ [op] } with
          | error e => rw [ht] at h; simp at h
          | ok st2 =>
            rw [ht] at h
            simp only [except_ok_bind] at h
            have hmap : (output_attrs.zip node.outputs).map (fun pr => pr.2.name) =
                node.outputs.map (fun o => o.name) := by
              rw [show (fun pr : TensorAttributes × PValueInfo => pr.2.name) =
                    (fun o : PValueInfo => o.name) ∘ Prod.snd from rfl,
                  ← List.map_map,
                  List.map_snd_zip _ _ (le_of_eq hlen.symm)]
            simp only [DefBeforeUseAux, Bool.and_eq_true]
            constructor
            · rw [List.all_eq_true]
              intro v hv
              have hsome := resolveInputs_defined _ _ _ hr v hv
              have hmem : v.name ∈ defined := (hdef v.name).mpr hsome
              exact List.elem_iff.mpr hmem
            · apply ih _ _ h
              intro name
              constructor
              · intro hmem
                rcases List.mem_append.mp hmem with hmem' | hmem'
                · exact (tagOutputs_lookup _ _ _ ht name).mpr
                    (Or.inl ((hdef name).mp hmem'))
                · exact (tagOutputs_lookup _ _ _ ht name).mpr
                    (Or.inr (by rw [hmap]; exact hmem'))
              · intro hs
                rcases (tagOutputs_lookup _ _ _ ht name).mp hs with h' | h'
                · exact List.mem_append.mpr (Or.inl ((hdef name).mpr h'))
                · exact List.mem_append.mpr (Or.inr (by rw [hmap] at h'; exact h'))
        · rw [if_neg hlen] at h
          simp at h

/-- Effect summary of the graph-output pass: the output-UID list gains
the UID of each declared output's symbol-table entry and the shape list
gains its declared static shape, in order; `uid`s visible through the
table are preserved. -/
theorem markOutputs_spec :
    ∀ (outs : List PValueInfo) (st st' : KernelState),
    MarkOutputs outs st = .ok st' →
    st'.next_uid = st.next_uid ∧
    st'.assigned = st.assigned ∧
    st'.input_uids = st.input_uids ∧
    st'.workspace = st.workspace ∧
    (∀ name, (lookupST st'.symbol_table name).map (fun a => a.uid) =
      (lookupST st.symbol_table name).map (fun a => a.uid)) ∧
    ∃ uids shapes,
      st'.output_uids = st.output_uids ++ uids ∧
      st'.output_shapes = st.output_shapes ++ shapes ∧
      List.Forall₂ (fun (o : PValueInfo) (u : Int) =>
        (lookupST st'.symbol_table o.name).map (fun a => a.uid) = some u) outs uids ∧
      List.Forall₂ (fun (o : PValueInfo) (s : List Int) => shapeOf o = some s) outs shapes := by
  intro outs
  induction outs with
  | nil =>
    intro st st' h
    obtain rfl : st = st' := by simpa [MarkOutputs] using h
    exact ⟨rfl, rfl, rfl, rfl, fun name => rfl, [], [],
      by simp, by simp, List.Forall₂.nil, List.Forall₂.nil⟩
  | cons out rest ih =>
    intro st st' h
    simp only [MarkOutputs] at h
    cases hl : lookupST st.symbol_table out.name with
    | none => rw [hl] at h; simp at h
    | some a =>
      rw [hl] at h
      cases hs : shapeOf out with
      | none => rw [hs] at h; simp at h
      | some shape =>
        rw [hs] at h
        obtain ⟨m1, m2, m3, m4, m5, uids, shapes, e1, e2, f1, f2⟩ := ih _ _ h
        refine ⟨?_, ?_, ?_, ?_, ?_, a.uid :: uids, shape :: shapes, ?_, ?_, ?_, ?_⟩
        · rw [m1]
        · rw [m2]
        · rw [m3]
        · rw [m4]
        · intro name
          rw [m5 name, lookupST_insert]
          by_cases hn : name = out.name
          · subst hn; rw [if_pos rfl, hl]; rfl
          · rw [if_neg hn]
        · rw [e1]; simp [List.append_assoc]
        · rw [e2]; simp [List.append_assoc]
        · refine List.Forall₂.cons ?_ f1
          rw [m5 out.name, lookupST_insert, if_pos rfl]
          rfl
        · exact List.Forall₂.cons hs f2

/-- The vendor build stages change nothing in the kernel state except
the workspace allocation. -/
theorem compileGraph_fields :
    ∀ (v : VendorApi) (st st' : KernelState), CompileGraph v st = .ok st' →
    st'.next_uid = st.next_uid ∧ st'.assigned = st.assigned ∧
    st'.input_uids = st.input_uids ∧ st'.output_uids = st.output_uids ∧
    st'.output_shapes = st.output_shapes ∧ st'.symbol_table = st.symbol_table ∧
    st'.graph_ops = st.graph_ops := by
  intro v st st' h
  unfold CompileGraph at h
  repeat' split at h
  all_goals
    first
      | (injection h with h; subst h; exact ⟨rfl, rfl, rfl, rfl, rfl, rfl, rfl⟩)
      | simp at h

/-- What a successful `Execute` passed to the vendor: the variant pack in
compiled order and the null-workspace rule; the counts necessarily
matched. -/
theorem execute_record :
    ∀ (v : VendorApi) (k : KernelState) (ctx : KernelContext) (r : ExecRecord),
    Execute v k ctx = .ok r →
    r.variant_pack = k.input_uids.zip ctx.inputs ++
      k.output_uids.zip ((List.range k.output_uids.length).map
        (fun i => ctx.allocate i (k.output_shapes.getD i []))) ∧
    r.workspace_ptr = (if k.workspace = 0 then none else some ()) ∧
    ctx.inputs.length = k.input_uids.length ∧
    ctx.outputCount = k.output_uids.length := by
  intro v k ctx r h
  unfold Execute at h
  split at h
  case isTrue h1 => simp at h
  case isFalse h1 =>
    split at h
    case isTrue h2 => simp at h
    case isFalse h2 =>
      split at h
      case isTrue hw =>
        simp only [] at h
        split at h
        · simp at h
        · injection h with h
          subst h
          exact ⟨rfl, (if_pos hw).symm, not_not.mp h1, not_not.mp h2⟩
      case isFalse hw =>
        simp only [] at h
        split at h
        · simp at h
        · injection h with h
          subst h
          exact ⟨rfl, (if_neg hw).symm, not_not.mp h1, not_not.mp h2⟩

/-- Decompose a successful translation into its three passes. -/
theorem translate_elim (g : PGraph) (st3 : KernelState) (h : Translate g = .ok st3) :
    ∃ st1 st2,
      ProcessInputs g.inputs {} = .ok st1 ∧
      ProcessNodes g.nodes st1 = .ok st2 ∧
      MarkOutputs g.outputs st2 = .ok st3 := by
  unfold Translate at h
  cases hp : ProcessInputs g.inputs {} with
  | error e => rw [hp] at h; simp at h
  | ok st1 =>
    rw [hp] at h
    simp only [except_ok_bind] at h
    cases hn : ProcessNodes g.nodes st1 with
    | error e => rw [hn] at h; simp at h
    | ok st2 =>
      rw [hn] at h
      simp only [except_ok_bind] at h
      exact ⟨st1, st2, rfl, hn, h⟩

/-- Decompose a successful `BuildAndCompile` into translation passes and
the vendor compilation. -/
theorem buildAndCompile_elim (v : VendorApi) (g : PGraph) (k : KernelState)
    (h : BuildAndCompile v g = .ok k) :
    ∃ st1 st2 st3,
      ProcessInputs g.inputs {} = .ok st1 ∧
      ProcessNodes g.nodes st1 = .ok st2 ∧
      MarkOutputs g.outputs st2 = .ok st3 ∧
      CompileGraph v st3 = .ok k := by
  unfold BuildAndCompile at h
  cases ht : Translate g with
  | error e => rw [ht] at h; simp at h
  | ok st3 =>
    rw [ht] at h
    simp only [except_ok_bind] at h
    obtain ⟨st1, st2, hp, hn, hm⟩ := translate_elim g st3 ht
    exact ⟨st1, st2, st3, hp, hn, hm, h⟩

/-! ## C4: UID assignment -/

/-- C4: after a successful `BuildAndCompile` on a subgraph with N tensor
values (graph inputs plus node outputs), the assignment trace is exactly
`[1, 2, ..., N]`: N UIDs, pairwise distinct and strictly increasing in
assignment order, all at least 1, with the counter starting at 1 and
finishing at N + 1 (so no value is ever reused). -/
theorem uid_assignment_spec (v : VendorApi) (g : PGraph) (k : KernelState)
    (h : BuildAndCompile v g = .ok k) :
    k.assigned = (List.range (g.inputs.length +
      (g.nodes.map (fun n => n.outputs.length)).sum)).map (fun i : Nat => 1 + (i : Int)) ∧
    k.assigned.length =
      g.inputs.length + (g.nodes.map (fun n => n.outputs.length)).sum ∧
    List.Pairwise (· < ·) k.assigned ∧
    (∀ u ∈ k.assigned, 1 ≤ u) ∧
    k.next_uid =
      1 + ((g.inputs.length + (g.nodes.map (fun n => n.outputs.length)).sum : Nat) : Int) := by
  obtain ⟨st1, st2, st3, hp, hn, hm, hc⟩ := buildAndCompile_elim v g k h
  obtain ⟨p1, p2, p3, p4, p5, p6, p7⟩ := processInputs_spec _ _ _ hp
  obtain ⟨n1, n2, n3, n4, n5, n6⟩ := processNodes_spec _ _ _ hn
  obtain ⟨m1, m2, m3, m4, m5, uids, shapes, e1, e2, f1, f2⟩ := markOutputs_spec _ _ _ hm
  obtain ⟨c1, c2, c3, c4, c5, c6, c7⟩ := compileGraph_fields _ _ _ hc
  have hassigned : k.assigned = (List.range (g.inputs.length +
      (g.nodes.map (fun n => n.outputs.length)).sum)).map (fun i : Nat => 1 + (i : Int)) := by
    rw [c2, m2, n2, p2, p1]
    rw [range_map_split 1 g.inputs.length ((g.nodes.map (fun n => n.outputs.length)).sum)]
    simp
  refine ⟨hassigned, ?_, ?_, ?_, ?_⟩
  · rw [hassigned]; simp
  · rw [hassigned]
    exact (List.pairwise_lt_range _).map _ (fun a b hab => by omega)
  · rw [hassigned]
    intro u hu
    simp only [List.mem_map] at hu
    obtain ⟨i, -, rfl⟩ := hu
    omega
  · rw [c1, m1, n1, p1]
    simp only []
    omega

/-! ## C3: order contracts -/

/-- C3: after a successful `BuildAndCompile`, the input-UID list holds
the UID created for each declared graph input in declaration order (the
i-th declared input got UID `1 + i`); the output-UID list holds, in
declared output order, the UID of each declared output's symbol-table
entry, and the shape list its declared static shape; and `Execute` binds
the i-th supplied input buffer pointer to the i-th input UID and the
i-th materialized output buffer to the i-th output UID in the variant
pack. -/
theorem order_contract_spec (v : VendorApi) (g : PGraph) (k : KernelState)
    (h : BuildAndCompile v g = .ok k) :
    k.input_uids = (List.range g.inputs.length).map (fun i : Nat => 1 + (i : Int)) ∧
    List.Forall₂ (fun (o : PValueInfo) (u : Int) =>
      (lookupST k.symbol_table o.name).map (fun a => a.uid) = some u)
      g.outputs k.output_uids ∧
    List.Forall₂ (fun (o : PValueInfo) (s : List Int) => shapeOf o = some s)
      g.outputs k.output_shapes ∧
    (∀ ctx r, Execute v k ctx = .ok r →
      r.variant_pack = k.input_uids.zip ctx.inputs ++
        k.output_uids.zip ((List.range k.output_uids.length).map
          (fun i => ctx.allocate i (k.output_shapes.getD i []))) ∧
      (∀ (i : Nat) (u : Int) (p : Nat),
        k.input_uids[i]? = some u → ctx.inputs[i]? = some p →
        r.variant_pack[i]? = some (u, p)) ∧
      (∀ (i : Nat) (u : Int), k.output_uids[i]? = some u →
        r.variant_pack[k.input_uids.length + i]? =
          some (u, ctx.allocate i (k.output_shapes.getD i [])))) := by
  obtain ⟨st1, st2, st3, hp, hn, hm, hc⟩ := buildAndCompile_elim v g k h
  obtain ⟨p1, p2, p3, p4, p5, p6, p7⟩ := processInputs_spec _ _ _ hp
  obtain ⟨n1, n2, n3, n4, n5, n6⟩ := processNodes_spec _ _ _ hn
  obtain ⟨m1, m2, m3, m4, m5, uids, shapes, e1, e2, f1, f2⟩ := markOutputs_spec _ _ _ hm
  obtain ⟨c1, c2, c3, c4, c5, c6, c7⟩ := compileGraph_fields _ _ _ hc
  have hin : k.input_uids = (List.range g.inputs.length).map (fun i : Nat => 1 + (i : Int)) := by
    rw [c3, m3, n3, p3]
    simp
  have hou : k.output_uids = uids := by
    rw [c4, e1, n4, p4]; simp
  have hos : k.output_shapes = shapes := by
    rw [c5, e2, n5, p5]; simp
  refine ⟨hin, ?_, ?_, ?_⟩
  · rw [hou, c6]; exact f1
  · rw [hos]; exact f2
  · intro ctx r hex
    obtain ⟨hvp, hwp, hcnt1, hcnt2⟩ := execute_record _ _ _ _ hex
    refine ⟨hvp, ?_, ?_⟩
    · intro i u p hu hp'
      have hi : i < k.input_uids.length := by
        by_contra hni
        rw [List.getElem?_eq_none (by omega)] at hu
        cases hu
      have hzlen : (k.input_uids.zip ctx.inputs).length = k.input_uids.length := by
        simp [List.length_zip, hcnt1]
      rw [hvp, List.getElem?_append_left (by rw [hzlen]; exact hi)]
      exact List.getElem?_zip_eq_some.mpr ⟨hu, hp'⟩
    · intro i u hu
      have hi : i < k.output_uids.length := by
        by_contra hni
        rw [List.getElem?_eq_none (by omega)] at hu
        cases hu
      have hzlen : (k.input_uids.zip ctx.inputs).length = k.input_uids.length := by
        simp [List.length_zip, hcnt1]
      rw [hvp, List.getElem?_append_right (by rw [hzlen]; omega), hzlen]
      have harith : k.input_uids.length + i - k.input_uids.length = i := by omega
      rw [harith]
      refine List.getElem?_zip_eq_some.mpr ⟨hu, ?_⟩
      simp [List.getElem?_range hi]

/-- Witness for C3: the one-Conv subgraph `gEx`, compiled under the
all-ok vendor, satisfies the order contract; a matching runtime context
exercises the `Execute` clause through the theorem. -/
theorem order_contract_witness :
    BuildAndCompile vOk gEx = .ok kEx ∧
    (kEx.input_uids = (List.range gEx.inputs.length).map (fun i : Nat => 1 + (i : Int)) ∧
    List.Forall₂ (fun (o : PValueInfo) (u : Int) =>
      (lookupST kEx.symbol_table o.name).map (fun a => a.uid) = some u)
      gEx.outputs kEx.output_uids ∧
    List.Forall₂ (fun (o : PValueInfo) (s : List Int) => shapeOf o = some s)
      gEx.outputs kEx.output_shapes ∧
    (∀ ctx r, Execute vOk kEx ctx = .ok r →
      r.variant_pack = kEx.input_uids.zip ctx.inputs ++
        kEx.output_uids.zip ((List.range kEx.output_uids.length).map
          (fun i => ctx.allocate i (kEx.output_shapes.getD i []))) ∧
      (∀ (i : Nat) (u : Int) (p : Nat),
        kEx.input_uids[i]? = some u → ctx.inputs[i]? = some p →
        r.variant_pack[i]? = some (u, p)) ∧
      (∀ (i : Nat) (u : Int), kEx.output_uids[i]? = some u →
        r.variant_pack[kEx.input_uids.length + i]? =
          some (u, ctx.allocate i (kEx.output_shapes.getD i []))))) :=
  ⟨by decide, order_contract_spec vOk gEx kEx (by decide)⟩

/-! ## C4 witness -/

/-- Witness for C4 at the concrete subgraph `gEx` (N = 3 tensor values):
the assignment trace is `[1, 2, 3]`. -/
theorem uid_assignment_witness :
    BuildAndCompile vOk gEx = .ok kEx ∧
    (kEx.assigned = (List.range (gEx.inputs.length +
      (gEx.nodes.map (fun n => n.outputs.length)).sum)).map (fun i : Nat => 1 + (i : Int)) ∧
    kEx.assigned.length =
      gEx.inputs.length + (gEx.nodes.map (fun n => n.outputs.length)).sum ∧
    List.Pairwise (· < ·) kEx.assigned ∧
    (∀ u ∈ kEx.assigned, 1 ≤ u) ∧
    kEx.next_uid =
      1 + ((gEx.inputs.length + (gEx.nodes.map (fun n => n.outputs.length)).sum : Nat) : Int)) :=
  ⟨by decide, uid_assignment_spec vOk gEx kEx (by decide)⟩

/-! ## C7: symbol resolution is single-pass, def-before-use -/

/-- C7: whenever `BuildAndCompile` succeeds, every node input name was
already in the symbol table when that node was reached — i.e. it is a
declared graph input or the output of an earlier node.  Contrapositive:
a node input that is neither makes translation fail, so compilation of
that subgraph does not proceed. -/
theorem translation_def_before_use (v : VendorApi) (g : PGraph) (k : KernelState)
    (h : BuildAndCompile v g = .ok k) : DefBeforeUse g = true := by
  obtain ⟨st1, st2, st3, hp, hn, hm, hc⟩ := buildAndCompile_elim v g k h
  unfold DefBeforeUse
  apply processNodes_defined _ _ _ hn
  intro name
  rw [processInputs_lookup _ _ _ hp name]
  simp [lookupST]

/-- Witness for C7 at the concrete subgraph `gEx`: its single Conv node
reads only declared graph inputs. -/
theorem translation_def_before_use_witness :
    BuildAndCompile vOk gEx = .ok kEx ∧ DefBeforeUse gEx = true :=
  ⟨by decide, translation_def_before_use vOk gEx kEx (by decide)⟩

/-! ## C5: padding normalization -/

/-- A normalized padding list has exactly 4 entries. -/
theorem normalizePads_length (p p' : List Int) (h : NormalizePads p = .ok p') :
    p'.length = 4 := by
  unfold NormalizePads at h
  by_cases h2 : p.length = 2
  · rw [if_pos h2] at h
    injection h with h
    rw [← h]
    rfl
  · rw [if_neg h2] at h
    by_cases h4 : p.length = 4
    · rw [if_neg (not_not_intro h4)] at h
      injection h with h
      rw [← h, h4]
    · rw [if_pos h4] at h
      simp at h

/-- C5: a 2-element padding attribute `[h, w]` normalizes to
`[h, w, h, w]`; a padding attribute whose length is neither 2 nor 4 is a
translation error; and the vendor convolution attributes receive only
the leading two elements of the normalized 4-element list. -/
theorem padding_normalization :
    (∀ hh ww : Int, NormalizePads [hh, ww] = .ok [hh, ww, hh, ww]) ∧
    (∀ p : List Int, p.length ≠ 2 → p.length ≠ 4 →
      NormalizePads p = .error "Conv pads must have 2 or 4 elements") ∧
    (∀ (node : PNode) (x w : TensorAttributes) (rest : List TensorAttributes)
        (cd : DataType) (p' : List Int),
      GetComputeDataType x.data_type w.data_type = some cd →
      NormalizePads (GetIntsAttrOrDefault node.lift "pads" [0, 0, 0, 0]) = .ok p' →
      (AddConvNode node (x :: w :: rest)).map (fun pr => pr.1.attrs.padding) =
        .ok (p'.take 2)) := by
  refine ⟨fun hh ww => by simp [NormalizePads], fun p h2 h4 => ?_, ?_⟩
  · simp [NormalizePads, h2, h4]
  · intro node x w rest cd p' hcd hnp
    have hl4 := normalizePads_length _ _ hnp
    have htake : p'.take 2 = [p'.getD 0 0, p'.getD 1 0] := by
      rcases p' with _ | ⟨a, _ | ⟨b, t⟩⟩ <;> simp_all [List.getD]
    simp only [AddConvNode]
    rw [hnp]
    simp only [except_ok_bind]
    rw [hcd]
    simp [Except.map, convFprop, htake]

/-- Witness for C5: `[1, 2]` normalizes to `[1, 2, 1, 2]`, `[1, 2, 3]`
is rejected, and a default-padding Conv node passes `[0, 0]` (the begin
half of `[0, 0, 0, 0]`) to the vendor attributes. -/
theorem padding_normalization_witness :
    NormalizePads [1, 2] = .ok [1, 2, 1, 2] ∧
    NormalizePads [1, 2, 3] = .error "Conv pads must have 2 or 4 elements" ∧
    (AddConvNode convNodeEx [taX, taW]).map (fun pr => pr.1.attrs.padding) =
      .ok (([0, 0, 0, 0] : List Int).take 2) :=
  ⟨padding_normalization.1 1 2,
   padding_normalization.2.1 [1, 2, 3] (by decide) (by decide),
   padding_normalization.2.2 convNodeEx taX taW [] DataType.FLOAT [0, 0, 0, 0]
     (by decide) (by decide)⟩

/-! ## C6: vendor build stages, strictly in order -/

/-- C6: `CompileGraph` runs validate, build-operation-graph,
create-execution-plans (fallback heuristic), check-support, build-plans
and the workspace-size query strictly in that order, stopping at the
first failing stage with an error naming that stage and carrying the
vendor diagnostic; on success a positive reported workspace size yields
a buffer of exactly that many bytes, a zero size leaves the
(translation-fresh, empty) workspace alone, and an empty workspace makes
`Execute` pass a null workspace pointer. -/
theorem compile_stage_contract (v : VendorApi) (st : KernelState) :
    (∀ m, v.validate st.graph_ops = .error m →
      CompileGraph v st = .error ("hipDNN graph validation failed: " ++ m)) ∧
    (∀ m, v.validate st.graph_ops = .ok () →
      v.build_operation_graph st.graph_ops = .error m →
      CompileGraph v st = .error ("hipDNN build_operation_graph failed: " ++ m)) ∧
    (∀ m, v.validate st.graph_ops = .ok () →
      v.build_operation_graph st.graph_ops = .ok () →
      v.create_execution_plans [HeuristicMode.FALLBACK] st.graph_ops = .error m →
      CompileGraph v st = .error ("hipDNN create_execution_plans failed: " ++ m)) ∧
    (∀ m, v.validate st.graph_ops = .ok () →
      v.build_operation_graph st.graph_ops = .ok () →
      v.create_execution_plans [HeuristicMode.FALLBACK] st.graph_ops = .ok () →
      v.check_support st.graph_ops = .error m →
      CompileGraph v st = .error ("hipDNN check_support failed: " ++ m)) ∧
    (∀ m, v.validate st.graph_ops = .ok () →
      v.build_operation_graph st.graph_ops = .ok () →
      v.create_execution_plans [HeuristicMode.FALLBACK] st.graph_ops = .ok () →
      v.check_support st.graph_ops = .ok () →
      v.build_plans st.graph_ops = .error m →
      CompileGraph v st = .error ("hipDNN build_plans failed: " ++ m)) ∧
    (∀ m, v.validate st.graph_ops = .ok () →
      v.build_operation_graph st.graph_ops = .ok () →
      v.create_execution_plans [HeuristicMode.FALLBACK] st.graph_ops = .ok () →
      v.check_support st.graph_ops = .ok () →
      v.build_plans st.graph_ops = .ok () →
      v.get_workspace_size st.graph_ops = .error m →
      CompileGraph v st = .error ("hipDNN get_workspace_size failed: " ++ m)) ∧
    (∀ s : Int, v.validate st.graph_ops = .ok () →
      v.build_operation_graph st.graph_ops = .ok () →
      v.create_execution_plans [HeuristicMode.FALLBACK] st.graph_ops = .ok () →
      v.check_support st.graph_ops = .ok () →
      v.build_plans st.graph_ops = .ok () →
      v.get_workspace_size st.graph_ops = .ok s → 0 < s →
      CompileGraph v st = .ok { st with workspace := s.toNat }) ∧
    (v.validate st.graph_ops = .ok () →
      v.build_operation_graph st.graph_ops = .ok () →
      v.create_execution_plans [HeuristicMode.FALLBACK] st.graph_ops = .ok () →
      v.check_support st.graph_ops = .ok () →
      v.build_plans st.graph_ops = .ok () →
      v.get_workspace_size st.graph_ops = .ok 0 →
      CompileGraph v st = .ok st) ∧
    (∀ (g : PGraph) (st0 : KernelState), Translate g = .ok st0 → st0.workspace = 0) ∧
    (∀ (k : KernelState) (ctx : KernelContext) (r : ExecRecord),
      k.workspace = 0 → Execute v k ctx = .ok r → r.workspace_ptr = none) := by
  refine ⟨?_, ?_, ?_, ?_, ?_, ?_, ?_, ?_, ?_, ?_⟩
  · intro m h1
    unfold CompileGraph
    rw [h1]
  · intro m h1 h2
    unfold CompileGraph
    rw [h1, h2]
  · intro m h1 h2 h3
    unfold CompileGraph
    rw [h1, h2, h3]
  · intro m h1 h2 h3 h4
    unfold CompileGraph
    rw [h1, h2, h3, h4]
  · intro m h1 h2 h3 h4 h5
    unfold CompileGraph
    rw [h1, h2, h3, h4, h5]
  · intro m h1 h2 h3 h4 h5 h6
    unfold CompileGraph
    rw [h1, h2, h3, h4, h5, h6]
  · intro s h1 h2 h3 h4 h5 h6 hs
    unfold CompileGraph
    rw [h1, h2, h3, h4, h5, h6]
    simp only [if_pos hs]
  · intro h1 h2 h3 h4 h5 h6
    unfold CompileGraph
    rw [h1, h2, h3, h4, h5, h6]
    simp
  · intro g st0 ht
    obtain ⟨st1, st2, hp, hn, hm⟩ := translate_elim g st0 ht
    obtain ⟨-, -, -, -, -, -, p7⟩ := processInputs_spec _ _ _ hp
    obtain ⟨-, -, -, -, -, n6⟩ := processNodes_spec _ _ _ hn
    obtain ⟨-, -, -, m4, -⟩ := markOutputs_spec _ _ _ hm
    rw [m4, n6, p7]
  · intro k ctx r hw hex
    rw [(execute_record v k ctx r hex).2.1, if_pos hw]

/-- Witness for C6: vendors failing at each single stage produce exactly
that stage's tagged diagnostic; a 16-byte workspace report allocates 16
bytes; the all-ok zero-workspace vendor leaves the state unchanged;
translation starts with an empty workspace; and executing the compiled
`gEx` kernel (empty workspace) passes a null workspace pointer. -/
theorem compile_stage_contract_witness :
    CompileGraph vFailValidate {} = .error ("hipDNN graph validation failed: " ++ "vm") ∧
    CompileGraph vFailBuildOp {} = .error ("hipDNN build_operation_graph failed: " ++ "bm") ∧
    CompileGraph vFailPlans {} = .error ("hipDNN create_execution_plans failed: " ++ "pm") ∧
    CompileGraph vFailSupport {} = .error ("hipDNN check_support failed: " ++ "sm") ∧
    CompileGraph vFailBuildPlans {} = .error ("hipDNN build_plans failed: " ++ "lm") ∧
    CompileGraph vFailWs {} = .error ("hipDNN get_workspace_size failed: " ++ "wm") ∧
    CompileGraph vWs16 {} = .ok { ({} : KernelState) with workspace := (16 : Int).toNat } ∧
    CompileGraph vOk {} = .ok {} ∧
    stTr.workspace = 0 ∧
    rEx.workspace_ptr = none :=
  ⟨(compile_stage_contract vFailValidate {}).1 "vm" (by decide),
   (compile_stage_contract vFailBuildOp {}).2.1 "bm" (by decide) (by decide),
   (compile_stage_contract vFailPlans {}).2.2.1 "pm" (by decide) (by decide) (by decide),
   (compile_stage_contract vFailSupport {}).2.2.2.1 "sm" (by decide) (by decide) (by decide)
     (by decide),
   (compile_stage_contract vFailBuildPlans {}).2.2.2.2.1 "lm" (by decide) (by decide)
     (by decide) (by decide) (by decide),
   (compile_stage_contract vFailWs {}).2.2.2.2.2.1 "wm" (by decide) (by decide) (by decide)
     (by decide) (by decide) (by decide),
   (compile_stage_contract vWs16 {}).2.2.2.2.2.2.1 16 (by decide) (by decide) (by decide)
     (by decide) (by decide) (by decide) (by decide),
   (compile_stage_contract vOk {}).2.2.2.2.2.2.2.1 (by decide) (by decide) (by decide)
     (by decide) (by decide) (by decide),
   (compile_stage_contract vOk {}).2.2.2.2.2.2.2.2.1 gEx stTr (by decide),
   (compile_stage_contract vOk {}).2.2.2.2.2.2.2.2.2 kEx ctxEx rEx (by decide) (by decide)⟩

/-! ## C10: empty fused subgraphs fail the compile call -/

/-- C10: a compile batch containing a zero-node fused subgraph never
succeeds — the whole call reports an error — and when the zero-node
subgraph is reached first the call returns exactly the empty-graph
diagnostic with the kernel table untouched (no empty Kernel is
registered). -/
theorem compile_empty_graph_rejected (v : VendorApi) :
    (∀ (table : List (String × KernelState)) (reqs : List CompileRequest),
      (∃ r ∈ reqs, r.graph.nodes = []) →
      (CompileImpl v table reqs).2.isSome = true) ∧
    (∀ (table : List (String × KernelState)) (r : CompileRequest)
        (rest : List CompileRequest),
      r.graph.nodes = [] →
      CompileImpl v table (r :: rest) =
        (table, some "Empty graph provided for compilation")) := by
  constructor
  · intro table reqs
    induction reqs generalizing table with
    | nil => rintro ⟨r, hr, -⟩; cases hr
    | cons q rest ih =>
      rintro ⟨r, hr, hempty⟩
      simp only [CompileImpl]
      by_cases hq : q.graph.nodes.isEmpty
      · rw [if_pos hq]; rfl
      · rw [if_neg hq]
        cases hb : BuildAndCompile v q.graph with
        | error e => rfl
        | ok k =>
          rcases List.mem_cons.mp hr with rfl | hr'
          · exact absurd (by simp [hempty]) hq
          · exact ih (emplaceK table q.fused_node_name k) ⟨r, hr', hempty⟩
  · intro table r rest hempty
    simp only [CompileImpl]
    rw [if_pos (by simp [hempty])]

/-- Witness for C10: a batch `[goodReq, emptyReq]` fails as a whole, and
a batch headed by the empty subgraph returns the exact diagnostic with
the table unchanged. -/
theorem compile_empty_graph_rejected_witness :
    (CompileImpl vOk [] [goodReq, emptyReq]).2.isSome = true ∧
    CompileImpl vOk [] [emptyReq] = ([], some "Empty graph provided for compilation") :=
  ⟨(compile_empty_graph_rejected vOk).1 [] [goodReq, emptyReq]
     ⟨emptyReq, by decide, rfl⟩,
   (compile_empty_graph_rejected vOk).2 [] emptyReq [] rfl⟩

/-! ## C1: compile-batch failure semantics -/

/-- C1 (amended): `CompileImpl` aborts the batch at the first failing
subgraph — that subgraph and all later ones register nothing and the
call returns the failure — but Kernels registered for subgraphs that
compiled successfully earlier in the same request are not rolled back:
the final table is the starting table extended (emplace semantics) by
one Kernel per request of the longest all-successful prefix. -/
theorem compile_batch_prefix_commit (v : VendorApi)
    (table : List (String × KernelState)) (reqs : List CompileRequest) :
    CompileImpl v table reqs =
      ((CompiledPrefix v reqs).foldl (fun t p => emplaceK t p.1 p.2) table,
       FirstCompileError v reqs) := by
  induction reqs generalizing table with
  | nil => rfl
  | cons r rest ih =>
    by_cases hr : r.graph.nodes.isEmpty
    · simp [CompileImpl, CompiledPrefix, FirstCompileError, TryCompileOne, hr]
    · cases hb : BuildAndCompile v r.graph with
      | error e =>
        simp [CompileImpl, CompiledPrefix, FirstCompileError, TryCompileOne, hr, hb]
      | ok k =>
        simp only [CompileImpl, CompiledPrefix, FirstCompileError, TryCompileOne,
          if_neg hr, hb, List.foldl_cons]
        exact ih _

/-- Counterexample to C1 as frozen: in the batch `[goodReq, badReq]` the
second subgraph's `BuildAndCompile` fails and the call returns an error,
yet the Facade table afterwards is not the table before the call — the
first subgraph's Kernel `"good"` remains registered. -/
theorem compile_batch_rollback_cex :
    (BuildAndCompile vOk badGraphEx).toOption.isNone = true ∧
    (CompileImpl vOk [] [goodReq, badReq]).2.isSome = true ∧
    (CompileImpl vOk [] [goodReq, badReq]).1.map Prod.fst = ["good"] := by decide

end HipdnnEP
